import Mathlib

/-!
Shallow embedding of the LiveClasses backend (FastAPI + SQLAlchemy + Zoom +
Azure blob storage) for specification checking.

Modelling conventions:
* `datetime` values are modelled as seconds since the epoch (`Int`);
  `timedelta(hours=1)` is `3600`, `isoformat`/`strftime` are modelled by
  `toString` (their exact text never matters for the claims below).
* byte strings are `List Nat`; an empty Python bytes object is `[]` and is
  falsy (`not content` is `content = []` or `none`).
* every remote side effect (Zoom HTTP call, blob upload, SMTP send) is an
  explicit environment argument, so the handlers become pure functions from
  the environment and the database state to an `Except`-style result, the
  error carrying the HTTP status code the handler raises.
* the relational store is three tables (sessions / participants / meetings)
  in insertion order; SQLAlchemy relationship access is a filter on the
  foreign key.
-/

/-- One row of the `class_sessions` table (`backend/models.py`). -/
structure SessionRow where
  id : String
  title : String
  description : Option String
deriving Repr, DecidableEq

/-- One row of the `participants` table (`backend/models.py`). -/
structure Participant where
  id : String
  session_id : String
  email : String
  role : String
deriving Repr, DecidableEq

/-- One row of the `meetings` table (`backend/models.py`). -/
structure Meeting where
  id : String
  uuid : String
  session_id : String
  join_url : String
  scheduled_for : Int
deriving Repr, DecidableEq

/-- The relational store: the three tables, rows in insertion order. -/
structure DB where
  sessions : List SessionRow
  participants : List Participant
  meetings : List Meeting
deriving Repr, DecidableEq

/-- `db.query(ClassSession).filter(ClassSession.id == session_id).first()`. -/
def findSession (db : DB) (sid : String) : Option SessionRow :=
  db.sessions.find? (fun s => s.id = sid)

/-- `sess.meetings` — the relationship resolves the foreign key. -/
def meetingsOf (db : DB) (sid : String) : List Meeting :=
  db.meetings.filter (fun m => m.session_id = sid)

/-- `sess.participants` — the relationship resolves the foreign key. -/
def participantsOf (db : DB) (sid : String) : List Participant :=
  db.participants.filter (fun p => p.session_id = sid)

/-! ## Zoom recording listing (`recording_service.list_recordings`) -/

/-- A recording-file object inside Zoom's listing response. -/
structure ZoomFile where
  id : String
  file_type : String
  download_url : String
  recording_start : String
  recording_end : String
deriving Repr, DecidableEq

/-- Zoom's answer to `GET /v2/meetings/{id}/recordings`. -/
structure ListResp where
  status : Nat
  recording_files : List ZoomFile
deriving Repr, DecidableEq

/-- The Zoom listing endpoint, as a function from the request URL. -/
def ZoomEnv : Type := String → ListResp

/-- `f"https://api.zoom.us/v2/meetings/{meet.id}/recordings"`. -/
def recordingsUrl (mid : String) : String :=
  "https://api.zoom.us/v2/meetings/" ++ mid ++ "/recordings"

/-- One record appended to `out` by `list_recordings`. -/
structure RecOut where
  meeting_id : String
  id : String
  file_type : String
  download_url : String
  recording_start : String
  recording_end : String
deriving Repr, DecidableEq

/-- The record `list_recordings` builds for one file of one meeting:
the download URL is the provider URL with `?access_token=<token>` appended. -/
def mkRec (token mid : String) (f : ZoomFile) : RecOut :=
  { meeting_id := mid
    id := f.id
    file_type := f.file_type
    download_url := f.download_url ++ "?access_token=" ++ token
    recording_start := f.recording_start
    recording_end := f.recording_end }

/-- `recording_service.list_recordings`: 404 when the session is absent;
otherwise one GET per meeting of the session (the returned trace is the list
of requested URLs), a non-200 listing response is skipped (`continue`) and
the files of the remaining meetings are still collected. -/
def list_recordings (zoom : ZoomEnv) (token : String) (db : DB) (sid : String) :
    Except Nat (List String × List RecOut) :=
  match findSession db sid with
  | none => .error 404
  | some _ =>
    let meets := meetingsOf db sid
    .ok (meets.map (fun m => recordingsUrl m.id),
         meets.flatMap (fun m =>
           let resp := zoom (recordingsUrl m.id)
           if resp.status = 200 then
             resp.recording_files.map (mkRec token m.id)
           else []))

/-! ## Download fallback chain (`recording_service.store_recordings_to_azure`) -/

/-- Authentication carried by one download attempt: either an
`Authorization: Bearer <token>` header or no header at all. -/
inductive Auth where
  | bearer (token : String)
  | noAuth
deriving Repr, DecidableEq

/-- A download request: target URL plus authentication. -/
structure Req where
  url : String
  auth : Auth
deriving Repr, DecidableEq

/-- A download response: HTTP status and body bytes. -/
structure Resp where
  status : Nat
  body : List Nat
deriving Repr, DecidableEq

/-- The download side of the network, as a function of the request. -/
def DlEnv : Type := Req → Resp

/-- Attempt (1): `client.get(url)` where `client` carries the bearer header. -/
def attempt1 (token url : String) : Req :=
  { url := url, auth := .bearer token }

/-- Attempt (2): same bearer client, URL with `?download_access_token=<token>`
appended. -/
def attempt2 (token url : String) : Req :=
  { url := url ++ "?download_access_token=" ++ token, auth := .bearer token }

/-- Attempt (3): a fresh unauthenticated client on the original URL. -/
def attempt3 (url : String) : Req :=
  { url := url, auth := .noAuth }

/-- The per-file fallback chain of `store_recordings_to_azure`: the three
attempts in order, each tried only while `content is None`, each accepted only
on status 200.  Returns the trace of attempts actually performed and the
downloaded content (if any). -/
def tryDownload (env : DlEnv) (token url : String) : List Req × Option (List Nat) :=
  let r1 := attempt1 token url
  if (env r1).status = 200 then ([r1], some (env r1).body)
  else
    let r2 := attempt2 token url
    if (env r2).status = 200 then ([r1, r2], some (env r2).body)
    else
      let r3 := attempt3 url
      if (env r3).status = 200 then ([r1, r2, r3], some (env r3).body)
      else ([r1, r2, r3], none)

/-- Azure blob container contents: key to stored bytes. -/
def BlobStore : Type := String → Option (List Nat)

/-- `blob_client.upload_blob(content, overwrite=True)`. -/
def upload_blob (bs : BlobStore) (name : String) (content : List Nat) : BlobStore :=
  fun k => if k = name then some content else bs k

/-- `f"{session_id}/{rec['meeting_id']}/{rec['id']}.{ext}"` with
`ext = rec["file_type"].lower()`. -/
def blobName (sid : String) (rec : RecOut) : String :=
  sid ++ "/" ++ rec.meeting_id ++ "/" ++ rec.id ++ "." ++ rec.file_type.toLower

/-- One entry of the `stored` result list. -/
structure StoredRec where
  meeting_id : String
  file_id : String
  blob_path : String
  file_size : Nat
deriving Repr, DecidableEq

/-- The `for rec in recs` loop of `store_recordings_to_azure`: download via the
fallback chain, `continue` when `not content` (no attempt succeeded, or a 200
returned an empty body), otherwise upload under `blobName` with overwrite and
append the stored record. -/
def storeLoop (env : DlEnv) (token sid : String) :
    List RecOut → BlobStore → BlobStore × List StoredRec
  | [], bs => (bs, [])
  | rec :: rest, bs =>
    match (tryDownload env token rec.download_url).2 with
    | none => storeLoop env token sid rest bs
    | some content =>
      if content = [] then storeLoop env token sid rest bs
      else
        let name := blobName sid rec
        let next := storeLoop env token sid rest (upload_blob bs name content)
        (next.1, { meeting_id := rec.meeting_id, file_id := rec.id,
                   blob_path := name, file_size := content.length } :: next.2)

/-- `recording_service.store_recordings_to_azure`: list the recordings (404
propagates when the session is absent), raise 404 when nothing was listed,
otherwise run the per-file loop and return the final blob store together with
the `stored` list — with no emptiness check on `stored` at the end. -/
def store_recordings_to_azure (zoom : ZoomEnv) (env : DlEnv) (token : String)
    (db : DB) (sid : String) (bs : BlobStore) :
    Except Nat (BlobStore × List StoredRec) :=
  match list_recordings zoom token db sid with
  | .error e => .error e
  | .ok (_, recs) =>
    if recs = [] then .error 404
    else .ok (storeLoop env token sid recs bs)

/-! ## Email sending and ICS templates -/

/-- The arguments `send_email_with_ics` is invoked with. -/
structure EmailMsg where
  to_emails : List String
  subject : String
  body : String
  ics_content : String
  ics_filename : String
deriving Repr, DecidableEq

/-- The SMTP relay: sending either succeeds or raises (error text). -/
def EmailEnv : Type := EmailMsg → Except String Unit

/-- `utils/ics_utils.build_placeholder_ics` (also inlined in
`backend/main.py` `add_participants`); `nowStr` stands for the formatted
`datetime.utcnow()` stamp, `endStr` for `utcnow + 1 hour`. -/
def build_placeholder_ics (nowStr endStr sid title : String) : String :=
  "BEGIN:VCALENDAR\n" ++ "VERSION:2.0\n" ++ "PRODID:-//Live Classes//EN\n" ++
  "METHOD:REQUEST\n" ++ "BEGIN:VEVENT\n" ++
  "UID:" ++ sid ++ "@live-classes\n" ++
  "DTSTAMP:" ++ nowStr ++ "\n" ++
  "DTSTART:" ++ nowStr ++ "\n" ++
  "DTEND:" ++ endStr ++ "\n" ++
  "SUMMARY:" ++ title ++ " (not yet scheduled)\n" ++
  "END:VEVENT\n" ++ "END:VCALENDAR"

/-- The ICS event template built inline by `backend/main.py` for
`schedule_meeting` and `send_invites` (the formatted stamps are passed in). -/
def meeting_ics (uidBase dtstamp dtstart dtend title join_url desc : String) : String :=
  "BEGIN:VCALENDAR\n" ++ "VERSION:2.0\n" ++ "PRODID:-//Live Classes//EN\n" ++
  "METHOD:REQUEST\n" ++ "BEGIN:VEVENT\n" ++
  "UID:" ++ uidBase ++ "@live-classes\n" ++
  "DTSTAMP:" ++ dtstamp ++ "\n" ++
  "DTSTART:" ++ dtstart ++ "\n" ++
  "DTEND:" ++ dtend ++ "\n" ++
  "SUMMARY:" ++ title ++ "\n" ++
  "DESCRIPTION:Join Zoom Meeting: " ++ join_url ++ "\\n\\n" ++ desc ++ "\n" ++
  "LOCATION:" ++ join_url ++ "\n" ++
  "END:VEVENT\n" ++ "END:VCALENDAR"

/-- Formatted timestamp of a modelled `datetime` (`strftime`/`isoformat`). -/
def fmtTime (t : Int) : String := toString t

/-! ## Zoom meeting creation (`services/zoom_service.py`, `backend/main.py`) -/

/-- The JSON payload POSTed to `users/{ZOOM_USER_ID}/meetings`
(`"type": 2`, `"timezone": "UTC"`, `settings.auto_recording = "cloud"`). -/
structure ZoomCreateReq where
  topic : String
  typ : Nat
  start_time : Int
  duration : Int
  timezone : String
  auto_recording : String
deriving Repr, DecidableEq

/-- Zoom's reply to the meeting-create POST: HTTP status, body text, and the
JSON fields the handlers read. -/
structure ZoomCreateResp where
  status : Nat
  id : Nat
  uuid : String
  join_url : Option String
  join_web_url : Option String
  text : String
deriving Repr, DecidableEq

/-- The Zoom meeting-create endpoint as a function of the payload. -/
def CreateEnv : Type := ZoomCreateReq → ZoomCreateResp

/-- `create_zoom_meeting` (both revisions build the same payload):
`duration = int((end - start).total_seconds() / 60)`; a status `>= 400`
raises with that status (`raise_for_status` / explicit check); returns the
issued request together with the outcome. -/
def create_zoom_meeting (cenv : CreateEnv) (subject : String) (start e : Int) :
    ZoomCreateReq × Except Nat ZoomCreateResp :=
  let req : ZoomCreateReq :=
    { topic := subject, typ := 2, start_time := start,
      duration := (e - start) / 60, timezone := "UTC", auto_recording := "cloud" }
  let resp := cenv req
  (req, if 400 ≤ resp.status then .error resp.status else .ok resp)

/-- `controllers/meetings.py` `schedule_meeting`: 404 when the session is
absent; `end = start + 1 hour`; create the Zoom meeting (propagating the
provider error status); persist a `Meeting` row with the provider id/uuid,
`join_url = zm.get("join_url", "")` and `scheduled_for = start`.  The issued
create request is returned for inspection. -/
def schedule_meeting (cenv : CreateEnv) (db : DB) (sid : String)
    (scheduled_for : Int) : Except Nat (DB × Meeting × ZoomCreateReq) :=
  match findSession db sid with
  | none => .error 404
  | some sess =>
    let start := scheduled_for
    let e := start + 3600
    let zres := create_zoom_meeting cenv sess.title start e
    match zres.2 with
    | .error s => .error s
    | .ok zm =>
      let meeting : Meeting :=
        { id := toString zm.id, uuid := zm.uuid, session_id := sid,
          join_url := zm.join_url.getD "", scheduled_for := start }
      .ok ({ db with meetings := db.meetings ++ [meeting] }, meeting, zres.1)

/-- `backend/main.py` `schedule_meeting` (monolith revision): same scheduling
flow but `join_url = zm.get("join_web_url", zm.get("join_url", ""))`, and when
the session has participants a meeting-invite email is sent inside
`try/except` — a delivery failure is printed and swallowed, the meeting is
returned either way. -/
def schedule_meeting_mono (cenv : CreateEnv) (emailEnv : EmailEnv)
    (nowStr : String) (db : DB) (sid : String) (scheduled_for : Int) :
    Except Nat (DB × Meeting) :=
  match findSession db sid with
  | none => .error 404
  | some sess =>
    let start := scheduled_for
    let e := start + 3600
    let zres := create_zoom_meeting cenv sess.title start e
    match zres.2 with
    | .error s => .error s
    | .ok zm =>
      let join_url := match zm.join_web_url with
        | some j => j
        | none => zm.join_url.getD ""
      let meeting : Meeting :=
        { id := toString zm.id, uuid := zm.uuid, session_id := sid,
          join_url := join_url, scheduled_for := start }
      let db' := { db with meetings := db.meetings ++ [meeting] }
      let parts := participantsOf db sid
      if parts = [] then .ok (db', meeting)
      else
        let ics_event := meeting_ics (toString zm.id) nowStr (fmtTime start)
          (fmtTime e) sess.title join_url (sess.description.getD "")
        let msg : EmailMsg :=
          { to_emails := parts.map (fun p => p.email)
            subject := "Zoom meeting scheduled for session: " ++ sess.title
            body := "Hello,\n\nThe Zoom meeting for session “" ++ sess.title ++
              "” has been scheduled.\nJoin URL: " ++ join_url ++
              "\nScheduled For: " ++ fmtTime start ++
              "\n\nPlease find the calendar invite attached.\n\nBest regards,\nLive Classes Team"
            ics_content := ics_event
            ics_filename := "meeting_invite.ics" }
        match emailEnv msg with
        | .error _ => .ok (db', meeting)
        | .ok _ => .ok (db', meeting)


/-! ## Participant creation (`controllers/participants.py`, `backend/main.py`) -/

/-- `controllers/participants.py` `add_participants` (modular revision):
404 when the session is absent; one `Participant` row per email (fresh ids
supplied by the `ids` oracle, standing for `uuid4()`); rows are committed,
then the placeholder-ICS invite email is sent with **no** `try/except` — a
send failure escapes the handler (a 500 to the caller) after the commit.
The result is the post-commit database paired with the handler outcome. -/
def add_participants_mod (emailEnv : EmailEnv) (ids : Nat → String)
    (nowStr endStr : String) (db : DB) (sid : String)
    (emails : List String) (role : String) :
    DB × Except (Nat × String) (List Participant) :=
  match findSession db sid with
  | none => (db, .error (404, "Session not found"))
  | some sess =>
    let created := emails.enum.map (fun p =>
      { id := ids p.1, session_id := sid, email := p.2, role := role : Participant })
    let db' := { db with participants := db.participants ++ created }
    let ics := build_placeholder_ics nowStr endStr sid sess.title
    let msg : EmailMsg :=
      { to_emails := created.map (fun p => p.email)
        subject := "Invited to session: " ++ sess.title
        body := "You are invited to " ++ sess.title
        ics_content := ics
        ics_filename := "session_invite.ics" }
    match emailEnv msg with
    | .error e => (db', .error (500, e))
    | .ok _ => (db', .ok created)

/-- `backend/main.py` `add_participants` (monolith revision): identical row
creation, but the invite email is sent inside `try/except` — a failure is
printed and swallowed and the created participants are returned either way. -/
def add_participants_mono (emailEnv : EmailEnv) (ids : Nat → String)
    (nowStr endStr : String) (db : DB) (sid : String)
    (emails : List String) (role : String) :
    DB × Except (Nat × String) (List Participant) :=
  match findSession db sid with
  | none => (db, .error (404, "Session not found"))
  | some sess =>
    let created := emails.enum.map (fun p =>
      { id := ids p.1, session_id := sid, email := p.2, role := role : Participant })
    let db' := { db with participants := db.participants ++ created }
    let ics := build_placeholder_ics nowStr endStr sid sess.title
    let msg : EmailMsg :=
      { to_emails := created.map (fun p => p.email)
        subject := "Invited to session: " ++ sess.title
        body := "Hello,\n\nYou’ve been added as a " ++ role ++ " to “" ++
          sess.title ++ "”.\nDescription: " ++
          (sess.description.getD "No description") ++
          "\n\nA calendar invite is attached. When a meeting is scheduled, you’ll receive an updated invite with the Zoom link.\n\nBest regards,\nLive Classes Team"
        ics_content := ics
        ics_filename := "session_invite.ics" }
    match emailEnv msg with
    | .error _ => (db', .ok created)
    | .ok _ => (db', .ok created)

/-! ## Reschedule (`backend/main.py` `update_meeting`) -/

/-- The JSON body PATCHed to `https://api.zoom.us/v2/meetings/{meeting_id}`. -/
structure PatchReq where
  url : String
  start_time : Int
  duration : Int
deriving Repr, DecidableEq

/-- The Zoom meeting-patch endpoint: status and body text of the response. -/
def PatchEnv : Type := PatchReq → Nat × String

/-- `f"https://api.zoom.us/v2/meetings/{meeting_id}"`. -/
def zoomMeetingUrl (mid : String) : String :=
  "https://api.zoom.us/v2/meetings/" ++ mid

/-- Mutation of the first matching ORM row (`meet.scheduled_for = ...`). -/
def setFirst (p : Meeting → Bool) (m' : Meeting) : List Meeting → List Meeting
  | [] => []
  | x :: xs => if p x then m' :: xs else x :: setFirst p m' xs

/-- `backend/main.py` `update_meeting`: 404 when no meeting matches
`(session_id, meeting_id)`; PATCH Zoom with the new start and the recomputed
one-hour duration; a response status `>= 400` raises with that status and
nothing local is written; otherwise only `scheduled_for` of that row is
updated and committed. -/
def update_meeting (penv : PatchEnv) (db : DB) (sid mid : String)
    (new_scheduled_for : Int) : Except (Nat × String) (DB × Meeting) :=
  match db.meetings.find? (fun m => m.session_id = sid && m.id = mid) with
  | none => .error (404, "Meeting not found")
  | some meet =>
    let new_start := new_scheduled_for
    let new_end := new_start + 3600
    let req : PatchReq :=
      { url := zoomMeetingUrl mid, start_time := new_start,
        duration := (new_end - new_start) / 60 }
    let res := penv req
    if 400 ≤ res.1 then .error (res.1, "Zoom API error: " ++ res.2)
    else
      let m' := { meet with scheduled_for := new_start }
      .ok ({ db with meetings :=
               setFirst (fun m => m.session_id = sid && m.id = mid) m' db.meetings },
           m')

/-! ## `send_invites` (`backend/main.py`) and "latest meeting" selection -/

/-- Stable ascending insertion by `scheduled_for`: the new element goes after
every element already placed whose key is `<=` its own, so repeated insertion
in list order is exactly Python's stable `sorted(..., key=m.scheduled_for)`. -/
def insAfterLe (m : Meeting) : List Meeting → List Meeting
  | [] => [m]
  | x :: xs =>
    if x.scheduled_for ≤ m.scheduled_for then x :: insAfterLe m xs
    else m :: x :: xs

/-- `sorted(sess.meetings, key=lambda m: m.scheduled_for)`. -/
def sortByScheduledFor (l : List Meeting) : List Meeting :=
  l.foldl (fun acc m => insAfterLe m acc) []

/-- Placeholder row; only ever produced for an empty meeting list, which the
callers have already excluded. -/
def meetingDefault : Meeting :=
  { id := "", uuid := "", session_id := "", join_url := "", scheduled_for := 0 }

/-- `sorted(sess.meetings, key=lambda m: m.scheduled_for)[-1]` — the meeting
`send_invites` invites to. -/
def latestMeeting (l : List Meeting) : Meeting :=
  (sortByScheduledFor l).getLastD meetingDefault

/-- `backend/main.py` `send_invites`: 404 when the session is absent; 400
"No meeting scheduled yet" when the session has no meetings; otherwise pick
`latestMeeting`, build the ICS, 400 "No participants" when the participant
list is empty, send the invite email, turning a send failure into a 500 —
on success return the detail string. -/
def send_invites (emailEnv : EmailEnv) (nowStr : String) (db : DB)
    (sid : String) : Except (Nat × String) String :=
  match findSession db sid with
  | none => .error (404, "Session not found")
  | some sess =>
    let meets := meetingsOf db sid
    if meets = [] then .error (400, "No meeting scheduled yet for this session")
    else
      let latest_meeting := latestMeeting meets
      let start := latest_meeting.scheduled_for
      let e := start + 3600
      let ics_event := meeting_ics latest_meeting.id nowStr (fmtTime start)
        (fmtTime e) sess.title latest_meeting.join_url (sess.description.getD "")
      let emails := (participantsOf db sid).map (fun p => p.email)
      if emails = [] then .error (400, "No participants to invite")
      else
        let msg : EmailMsg :=
          { to_emails := emails
            subject := "Invitation: " ++ sess.title ++ " (Zoom Meeting)"
            body := "Hello,\n\nYou’re invited to the upcoming Zoom meeting for session “" ++
              sess.title ++ "”.\nJoin URL: " ++ latest_meeting.join_url ++
              "\nScheduled For: " ++ fmtTime start ++
              " UTC\n\nPlease find the attached calendar invite (.ics) and add it to your calendar.\n\nBest regards,\nLive Classes Team"
            ics_content := ics_event
            ics_filename := "meeting_invite.ics" }
        match emailEnv msg with
        | .error e2 => .error (500, "Failed to send invites: " ++ e2)
        | .ok _ => .ok ("Invites sent to " ++ toString emails.length ++ " participants")

/-! ## Concrete fixtures used by witnesses and counterexamples -/

/-- Example session row. -/
def exSession : SessionRow := { id := "S1", title := "Algebra", description := some "intro" }

/-- Example meeting with the earlier start. -/
def exMeeting1 : Meeting :=
  { id := "M1", uuid := "U1", session_id := "S1", join_url := "https://j/1", scheduled_for := 1000 }

/-- Example meeting with the later start. -/
def exMeeting2 : Meeting :=
  { id := "M2", uuid := "U2", session_id := "S1", join_url := "https://j/2", scheduled_for := 5000 }

/-- Example participant. -/
def exPart : Participant := { id := "P1", session_id := "S1", email := "a@x.com", role := "student" }

/-- Example database: one session, one participant, two meetings. -/
def exDb : DB := { sessions := [exSession], participants := [exPart], meetings := [exMeeting1, exMeeting2] }

/-- Example database with a session but no meetings and no participants. -/
def exDbBare : DB := { sessions := [exSession], participants := [], meetings := [] }

/-- Example Zoom recording file. -/
def exFile1 : ZoomFile :=
  { id := "F1", file_type := "MP4", download_url := "https://dl/f1",
    recording_start := "s", recording_end := "e" }

/-- Zoom listing environment: meeting M1 has one file, every other listing
request fails with 404. -/
def exZoomOneFile : ZoomEnv := fun u =>
  if u = recordingsUrl "M1" then { status := 200, recording_files := [exFile1] }
  else { status := 404, recording_files := [] }

/-- Download environment on which every request fails with 403. -/
def exDlFail : DlEnv := fun _ => { status := 403, body := [] }

/-- Download environment on which only unauthenticated requests succeed. -/
def exDlNoAuthOnly : DlEnv := fun r =>
  match r.auth with
  | .noAuth => { status := 200, body := [7] }
  | .bearer _ => { status := 401, body := [] }

/-- Download environment on which every request succeeds with body `[1,2,3]`. -/
def exDlOk : DlEnv := fun _ => { status := 200, body := [1, 2, 3] }

/-- Empty blob container. -/
def exBsEmpty : BlobStore := fun _ => none

/-- The record `list_recordings` produces for `exFile1` under meeting M1. -/
def exRecA : RecOut := mkRec "tok" "M1" exFile1

/-- A second record, for the skip/continue witnesses. -/
def exRecB : RecOut :=
  { meeting_id := "M2", id := "F2", file_type := "M4A",
    download_url := "https://dl/f2", recording_start := "s", recording_end := "e" }

/-- SMTP relay that always fails. -/
def exEmailFail : EmailEnv := fun _ => .error "smtp down"

/-- SMTP relay that always succeeds. -/
def exEmailOk : EmailEnv := fun _ => .ok ()

/-- `uuid4()` oracle for witnesses. -/
def exIds : Nat → String := fun n => "P" ++ toString n

/-- Zoom meeting-create endpoint that succeeds with meeting id 42. -/
def exCreateOk : CreateEnv := fun _ =>
  { status := 201, id := 42, uuid := "UU42", join_url := some "https://provider/j/42",
    join_web_url := none, text := "" }

/-- Zoom patch endpoint answering 300 (a non-2xx, non-error status). -/
def exPatch300 : PatchEnv := fun _ => (300, "redirect")

/-- Zoom patch endpoint answering 502. -/
def exPatch502 : PatchEnv := fun _ => (502, "bad gateway")

/-- Zoom patch endpoint answering 204. -/
def exPatch204 : PatchEnv := fun _ => (204, "")

/-! ## Claim theorems -/

/-- **C10** — every record returned by the recording list operation has its
`download_url` equal to the provider's raw download URL with the freshly
fetched OAuth access token appended as `?access_token=<token>`, so the bearer
token is disclosed in clear text to every caller of the listing endpoint. -/
theorem claim_C10_listing_discloses_token (zoom : ZoomEnv) (token : String)
    (db : DB) (sid : String) (trace : List String) (out : List RecOut)
    (h : list_recordings zoom token db sid = .ok (trace, out)) :
    ∀ r ∈ out, ∃ m ∈ meetingsOf db sid,
      ∃ f ∈ (zoom (recordingsUrl m.id)).recording_files,
        r.download_url = f.download_url ++ "?access_token=" ++ token := by
  intro r hr
  unfold list_recordings at h
  cases hfs : findSession db sid with
  | none => rw [hfs] at h; exact absurd h (by simp)
  | some sess =>
    rw [hfs] at h
    have hout : out = (meetingsOf db sid).flatMap (fun m =>
        let resp := zoom (recordingsUrl m.id)
        if resp.status = 200 then resp.recording_files.map (mkRec token m.id)
        else []) := by
      have := Except.ok.inj h
      exact (Prod.mk.injEq _ _ _ _ ▸ this).2.symm
    subst hout
    rcases List.mem_flatMap.1 hr with ⟨m, hm, hrm⟩
    by_cases hst : (zoom (recordingsUrl m.id)).status = 200
    · simp only [hst, if_pos] at hrm
      rcases List.mem_map.1 hrm with ⟨f, hf, rfl⟩
      exact ⟨m, hm, f, hf, rfl⟩
    · simp [hst] at hrm

/-- Witness for C10 at the concrete fixtures. -/
theorem claim_C10_witness :
    list_recordings exZoomOneFile "tok" exDb "S1" =
      .ok ([recordingsUrl "M1", recordingsUrl "M2"], [exRecA]) ∧
    ∀ r ∈ [exRecA], ∃ m ∈ meetingsOf exDb "S1",
      ∃ f ∈ (exZoomOneFile (recordingsUrl m.id)).recording_files,
        r.download_url = f.download_url ++ "?access_token=" ++ "tok" :=
  ⟨by rfl, claim_C10_listing_discloses_token exZoomOneFile "tok" exDb "S1"
    [recordingsUrl "M1", recordingsUrl "M2"] [exRecA] (by rfl)⟩

/-- **C7** — the recording list operation fails with 404 when the session is
absent; otherwise it returns (never a batch error) and queries the provider's
recordings endpoint once per meeting of the session; every meeting whose
response is 200 contributes all of its files, every returned record comes
from some meeting whose response was 200 (a non-200 meeting is silently
skipped, partial results are kept). -/
theorem claim_C7_listing_partial_results (zoom : ZoomEnv) (token : String)
    (db : DB) (sid : String) :
    (findSession db sid = none → list_recordings zoom token db sid = .error 404) ∧
    (∀ sess, findSession db sid = some sess →
      ∃ out, list_recordings zoom token db sid =
          .ok ((meetingsOf db sid).map (fun m => recordingsUrl m.id), out) ∧
        (∀ m ∈ meetingsOf db sid, (zoom (recordingsUrl m.id)).status = 200 →
          ∀ f ∈ (zoom (recordingsUrl m.id)).recording_files, mkRec token m.id f ∈ out) ∧
        (∀ r ∈ out, ∃ m ∈ meetingsOf db sid, (zoom (recordingsUrl m.id)).status = 200 ∧
          ∃ f ∈ (zoom (recordingsUrl m.id)).recording_files, r = mkRec token m.id f)) := by
  constructor
  · intro hfs
    unfold list_recordings
    rw [hfs]
  · intro sess hfs
    refine ⟨(meetingsOf db sid).flatMap (fun m =>
      let resp := zoom (recordingsUrl m.id)
      if resp.status = 200 then resp.recording_files.map (mkRec token m.id)
      else []), ?_, ?_, ?_⟩
    · unfold list_recordings
      rw [hfs]
    · intro m hm hst f hf
      refine List.mem_flatMap.2 ⟨m, hm, ?_⟩
      simp only [hst, if_pos]
      exact List.mem_map.2 ⟨f, hf, rfl⟩
    · intro r hr
      rcases List.mem_flatMap.1 hr with ⟨m, hm, hrm⟩
      by_cases hst : (zoom (recordingsUrl m.id)).status = 200
      · simp only [hst, if_pos] at hrm
        rcases List.mem_map.1 hrm with ⟨f, hf, rfl⟩
        exact ⟨m, hm, hst, f, hf, rfl⟩
      · simp [hst] at hrm

/-- Witness for C7: session present, M1 listing succeeds, M2 listing fails,
the partial result still carries M1's file. -/
theorem claim_C7_witness :
    findSession exDb "S1" = some exSession ∧
    list_recordings exZoomOneFile "tok" exDb "S1" =
      .ok ((meetingsOf exDb "S1").map (fun m => recordingsUrl m.id), [exRecA]) :=
  ⟨by rfl, by
    rcases (claim_C7_listing_partial_results exZoomOneFile "tok" exDb "S1").2
        exSession (by rfl) with ⟨out, hout, hall, honly⟩
    have : out = [exRecA] := by
      have h1 : mkRec "tok" "M1" exFile1 ∈ out := by
        refine hall exMeeting1 (by decide) (by rfl) exFile1 (by decide)
      revert hout
      unfold list_recordings
      intro hout
      rw [show findSession exDb "S1" = some exSession from rfl] at hout
      have := (Prod.mk.injEq _ _ _ _ ▸ Except.ok.inj hout).2
      rw [← this]
      rfl
    rw [this] at hout
    exact hout⟩

/-- **C4** — whenever scheduling succeeds for `scheduled_for = T`, the remote
meeting-create request carries start time `T` and a duration whose implied end
is exactly `T + 1` hour, the persisted `Meeting` has `scheduled_for = T`
exactly and is in the database, and the request's implied end is one hour
after the stored `scheduled_for`. -/
theorem claim_C4_one_hour_meetings (cenv : CreateEnv) (db : DB) (sid : String)
    (T : Int) (db' : DB) (m : Meeting) (req : ZoomCreateReq)
    (h : schedule_meeting cenv db sid T = .ok (db', m, req)) :
    req.start_time = T ∧ req.duration = 60 ∧
    req.start_time + req.duration * 60 = T + 3600 ∧
    m.scheduled_for = T ∧ m ∈ db'.meetings ∧
    req.start_time + req.duration * 60 = m.scheduled_for + 3600 := by
  unfold schedule_meeting create_zoom_meeting at h
  cases hfs : findSession db sid with
  | none => rw [hfs] at h; exact absurd h (by simp)
  | some sess =>
    rw [hfs] at h
    dsimp only at h
    split at h
    · exact absurd h (by simp)
    · rename_i zm heq
      split at heq
      · exact absurd heq (by simp)
      · have hzm := Except.ok.inj heq
        have h3 := Except.ok.inj h
        rw [Prod.ext_iff] at h3
        obtain ⟨h1, h2⟩ := h3
        rw [Prod.ext_iff] at h2
        obtain ⟨h2, h4⟩ := h2
        dsimp only at h1 h2 h4
        have hreq : req.start_time = T ∧ req.duration = (T + 3600 - T) / 60 := by
          constructor
          · rw [← h4]
          · rw [← h4]
        have hdur : (T + 3600 - T) / 60 = (60 : Int) := by
          have he : T + 3600 - T = (3600 : Int) := by ring
          rw [he]
          decide
        have hsf : m.scheduled_for = T := by rw [← h2]
        refine ⟨hreq.1, by rw [hreq.2, hdur], ?_, hsf, ?_, ?_⟩
        · rw [hreq.1, hreq.2, hdur]; ring
        · rw [← h2, ← h1]; simp
        · rw [hreq.1, hreq.2, hdur, hsf]; ring

/-- Witness for C4 at the concrete fixtures: scheduling session S1 at
`T = 7200` with a succeeding provider. -/
theorem claim_C4_witness :
    schedule_meeting exCreateOk exDb "S1" 7200 =
      .ok ({ exDb with meetings := exDb.meetings ++
              [{ id := "42", uuid := "UU42", session_id := "S1",
                 join_url := "https://provider/j/42", scheduled_for := 7200 }] },
           { id := "42", uuid := "UU42", session_id := "S1",
             join_url := "https://provider/j/42", scheduled_for := 7200 },
           { topic := "Algebra", typ := 2, start_time := 7200,
             duration := (7200 + 3600 - 7200) / 60, timezone := "UTC",
             auto_recording := "cloud" }) ∧
    ({ topic := "Algebra", typ := 2, start_time := 7200,
       duration := (7200 + 3600 - 7200) / 60, timezone := "UTC",
       auto_recording := "cloud" : ZoomCreateReq }).start_time +
      ({ topic := "Algebra", typ := 2, start_time := 7200,
         duration := (7200 + 3600 - 7200) / 60, timezone := "UTC",
         auto_recording := "cloud" : ZoomCreateReq }).duration * 60 = 7200 + 3600 ∧
    ({ id := "42", uuid := "UU42", session_id := "S1",
       join_url := "https://provider/j/42", scheduled_for := 7200 : Meeting }).scheduled_for = 7200 := by
  have h : schedule_meeting exCreateOk exDb "S1" 7200 =
      .ok ({ exDb with meetings := exDb.meetings ++
              [{ id := "42", uuid := "UU42", session_id := "S1",
                 join_url := "https://provider/j/42", scheduled_for := 7200 }] },
           { id := "42", uuid := "UU42", session_id := "S1",
             join_url := "https://provider/j/42", scheduled_for := 7200 },
           { topic := "Algebra", typ := 2, start_time := 7200,
             duration := (7200 + 3600 - 7200) / 60, timezone := "UTC",
             auto_recording := "cloud" }) := by rfl
  have hc := claim_C4_one_hour_meetings exCreateOk exDb "S1" 7200 _ _ _ h
  exact ⟨h, hc.2.2.1, hc.2.2.2.1⟩

/-- The PATCH body `update_meeting` sends: new start, and duration recomputed
from `new_end = new_start + 1 hour`. -/
def patchReqFor (mid : String) (t : Int) : PatchReq :=
  { url := zoomMeetingUrl mid, start_time := t, duration := (t + 3600 - t) / 60 }

/-- A row that does not satisfy the predicate survives `setFirst` untouched. -/
theorem mem_setFirst_of_not_pred {p : Meeting → Bool} {m' x : Meeting} :
    ∀ {l : List Meeting}, x ∈ l → p x = false → x ∈ setFirst p m' l := by
  intro l
  induction l with
  | nil => intro hx; exact absurd hx (by simp)
  | cons y ys ih =>
    intro hx hpx
    rcases List.mem_cons.1 hx with rfl | hx'
    · simp [setFirst, hpx]
    · by_cases hy : p y
      · simp [setFirst, hy]
        exact Or.inr hx'
      · simp only [setFirst, Bool.not_eq_true] at hy ⊢
        rw [if_neg (by simp [hy])]
        exact List.mem_cons.2 (Or.inr (ih hx' hpx))

/-- **C3 (counterexample)** — the reschedule PATCH answering status 300 (a
non-2xx status) does **not** abort: the handler returns success and the stored
`scheduled_for` is mutated to the new value, contradicting the claim that
every non-2xx provider status aborts the operation with the local record
unchanged. -/
theorem claim_C3_counterexample :
    update_meeting exPatch300 exDb "S1" "M1" 2000 =
      .ok ({ exDb with meetings :=
               [{ exMeeting1 with scheduled_for := 2000 }, exMeeting2] },
           { exMeeting1 with scheduled_for := 2000 }) ∧
    ¬(200 ≤ 300 ∧ 300 ≤ 299) :=
  ⟨by rfl, by decide⟩

/-- **C3 (amended)** — reschedule on a missing meeting is a 404; when the
provider patch answers a status `>= 400` the operation aborts carrying that
status (no local write occurs — the database is only produced in the success
branch); when the status is `< 400` (which includes every 2xx, but also 1xx
and 3xx) the matched row is replaced by a copy whose only changed field is
`scheduled_for`, every non-matching row survives, and the sessions and
participants tables are untouched. -/
theorem claim_C3_reschedule_amended (penv : PatchEnv) (db : DB)
    (sid mid : String) (t : Int) :
    (db.meetings.find? (fun m => m.session_id = sid && m.id = mid) = none →
      update_meeting penv db sid mid t = .error (404, "Meeting not found")) ∧
    (∀ meet, db.meetings.find? (fun m => m.session_id = sid && m.id = mid) = some meet →
      (400 ≤ (penv (patchReqFor mid t)).1 →
        update_meeting penv db sid mid t =
          .error ((penv (patchReqFor mid t)).1,
                  "Zoom API error: " ++ (penv (patchReqFor mid t)).2)) ∧
      ((penv (patchReqFor mid t)).1 < 400 →
        update_meeting penv db sid mid t =
          .ok ({ db with meetings := setFirst (fun m => m.session_id = sid && m.id = mid) { meet with scheduled_for := t } db.meetings }, { meet with scheduled_for := t }) ∧
        ({ meet with scheduled_for := t }).id = meet.id ∧
        ({ meet with scheduled_for := t }).uuid = meet.uuid ∧
        ({ meet with scheduled_for := t }).join_url = meet.join_url ∧
        ({ meet with scheduled_for := t }).session_id = meet.session_id ∧
        (∀ x ∈ db.meetings, (¬(x.session_id = sid ∧ x.id = mid)) →
          x ∈ setFirst (fun m => m.session_id = sid && m.id = mid)
                { meet with scheduled_for := t } db.meetings))) := by
  constructor
  · intro hfind
    unfold update_meeting
    rw [hfind]
  · intro meet hfind
    constructor
    · intro hst
      unfold update_meeting
      rw [hfind]
      dsimp only
      rw [if_pos (by exact hst)]
      unfold patchReqFor
      rfl
    · intro hst
      refine ⟨?_, rfl, rfl, rfl, rfl, ?_⟩
      · unfold update_meeting
        rw [hfind]
        dsimp only
        rw [if_neg (by unfold patchReqFor at hst; omega)]
      · intro x hx hnp
        exact mem_setFirst_of_not_pred hx (by
          simp only [Bool.and_eq_false_iff, decide_eq_false_iff_not]
          by_cases h1 : x.session_id = sid
          · exact Or.inr (fun h2 => hnp ⟨h1, h2⟩)
          · exact Or.inl h1)

/-- Witness for the amended C3: a 502 patch response aborts with status 502;
a 204 response updates only `scheduled_for` of the matched row. -/
theorem claim_C3_witness :
    update_meeting exPatch502 exDb "S1" "M1" 2000 =
      .error (502, "Zoom API error: " ++ "bad gateway") ∧
    update_meeting exPatch204 exDb "S1" "M1" 2000 =
      .ok ({ exDb with meetings := setFirst (fun m => m.session_id = "S1" && m.id = "M1") { exMeeting1 with scheduled_for := 2000 } exDb.meetings }, { exMeeting1 with scheduled_for := 2000 }) :=
  ⟨((claim_C3_reschedule_amended exPatch502 exDb "S1" "M1" 2000).2
      exMeeting1 (by rfl)).1 (by decide),
   (((claim_C3_reschedule_amended exPatch204 exDb "S1" "M1" 2000).2
      exMeeting1 (by rfl)).2 (by decide)).1⟩

/-- **C5** — `send_invites` is a 404 when the session is absent, a 400
"no meeting" whenever the session has zero meetings, a 400 "no participants"
whenever at least one meeting exists but the session has zero participants,
and when it proceeds an email delivery failure is propagated as a 500, not
swallowed. -/
theorem claim_C5_send_invites_errors (emailEnv : EmailEnv) (nowStr : String)
    (db : DB) (sid : String) :
    (findSession db sid = none →
      send_invites emailEnv nowStr db sid = .error (404, "Session not found")) ∧
    (∀ sess, findSession db sid = some sess → meetingsOf db sid = [] →
      send_invites emailEnv nowStr db sid =
        .error (400, "No meeting scheduled yet for this session")) ∧
    (∀ sess, findSession db sid = some sess → meetingsOf db sid ≠ [] →
      participantsOf db sid = [] →
      send_invites emailEnv nowStr db sid = .error (400, "No participants to invite")) ∧
    (∀ sess err, findSession db sid = some sess → meetingsOf db sid ≠ [] →
      participantsOf db sid ≠ [] → (∀ msg, emailEnv msg = .error err) →
      send_invites emailEnv nowStr db sid =
        .error (500, "Failed to send invites: " ++ err)) := by
  refine ⟨?_, ?_, ?_, ?_⟩
  · intro hfs
    unfold send_invites
    rw [hfs]
  · intro sess hfs hm
    unfold send_invites
    rw [hfs]
    dsimp only
    rw [if_pos hm]
  · intro sess hfs hm hp
    unfold send_invites
    rw [hfs]
    dsimp only
    rw [if_neg hm, if_pos (by rw [hp]; rfl)]
  · intro sess err hfs hm hp hfail
    unfold send_invites
    rw [hfs]
    dsimp only
    rw [if_neg hm, if_neg (by
      intro hmap
      exact hp (List.map_eq_nil_iff.1 hmap)), hfail _]

/-- Example database with meetings but no participants. -/
def exDbNoParts : DB :=
  { sessions := [exSession], participants := [], meetings := [exMeeting1, exMeeting2] }

/-- Witness for C5: all four failure branches at concrete inputs. -/
theorem claim_C5_witness :
    send_invites exEmailOk "now" exDbBare "S2" = .error (404, "Session not found") ∧
    send_invites exEmailOk "now" exDbBare "S1" =
      .error (400, "No meeting scheduled yet for this session") ∧
    send_invites exEmailOk "now" exDbNoParts "S1" =
      .error (400, "No participants to invite") ∧
    send_invites exEmailFail "now" exDb "S1" =
      .error (500, "Failed to send invites: " ++ "smtp down") :=
  ⟨(claim_C5_send_invites_errors exEmailOk "now" exDbBare "S2").1 (by rfl),
   (claim_C5_send_invites_errors exEmailOk "now" exDbBare "S1").2.1
     exSession (by rfl) (by rfl),
   (claim_C5_send_invites_errors exEmailOk "now" exDbNoParts "S1").2.2.1
     exSession (by rfl) (by decide) (by rfl),
   (claim_C5_send_invites_errors exEmailFail "now" exDb "S1").2.2.2
     exSession "smtp down" (by rfl) (by decide) (by decide) (fun _ => rfl)⟩

/-- **C1** — per recording file, download is attempted by exactly three
strategies in strict order — (1) bearer header, (2) the same URL with the
access token appended as a query parameter, (3) no authentication — stopping
at the first HTTP 200 (the returned trace shows exactly the attempts made);
if all three fail the file yields no content, is skipped, and the loop
continues with the remaining files unchanged. -/
theorem claim_C1_download_fallback (env : DlEnv) (token url : String) :
    ((env (attempt1 token url)).status = 200 →
      tryDownload env token url =
        ([attempt1 token url], some (env (attempt1 token url)).body)) ∧
    ((env (attempt1 token url)).status ≠ 200 →
      (env (attempt2 token url)).status = 200 →
      tryDownload env token url =
        ([attempt1 token url, attempt2 token url],
         some (env (attempt2 token url)).body)) ∧
    ((env (attempt1 token url)).status ≠ 200 →
      (env (attempt2 token url)).status ≠ 200 →
      (env (attempt3 url)).status = 200 →
      tryDownload env token url =
        ([attempt1 token url, attempt2 token url, attempt3 url],
         some (env (attempt3 url)).body)) ∧
    ((env (attempt1 token url)).status ≠ 200 →
      (env (attempt2 token url)).status ≠ 200 →
      (env (attempt3 url)).status ≠ 200 →
      (tryDownload env token url).2 = none ∧
      ∀ sid rec rest bs, rec.download_url = url →
        storeLoop env token sid (rec :: rest) bs = storeLoop env token sid rest bs) := by
  refine ⟨?_, ?_, ?_, ?_⟩
  · intro h1
    unfold tryDownload
    rw [if_pos h1]
  · intro h1 h2
    unfold tryDownload
    rw [if_neg h1, if_pos h2]
  · intro h1 h2 h3
    unfold tryDownload
    rw [if_neg h1, if_neg h2, if_pos h3]
  · intro h1 h2 h3
    have hnone : (tryDownload env token url).2 = none := by
      unfold tryDownload
      rw [if_neg h1, if_neg h2, if_neg h3]
    refine ⟨hnone, ?_⟩
    intro sid rec rest bs hrec
    have hnone' : (tryDownload env token rec.download_url).2 = none := by
      rw [hrec]; exact hnone
    simp only [storeLoop, hnone']

/-- Witness for C1: a file fetchable only without authentication is obtained
by the third attempt after both bearer attempts return 401; under an
all-failing environment the first file is skipped and the loop result equals
the loop on the remaining files. -/
theorem claim_C1_witness :
    tryDownload exDlNoAuthOnly "tok" "https://dl/f1" =
      ([attempt1 "tok" "https://dl/f1", attempt2 "tok" "https://dl/f1",
        attempt3 "https://dl/f1"], some [7]) ∧
    storeLoop exDlFail "tok" "S1" [exRecA, exRecB] exBsEmpty =
      storeLoop exDlFail "tok" "S1" [exRecB] exBsEmpty :=
  ⟨(claim_C1_download_fallback exDlNoAuthOnly "tok" "https://dl/f1").2.2.1
      (by decide) (by decide) (by decide),
   ((claim_C1_download_fallback exDlFail "tok" exRecA.download_url).2.2.2
      (by decide) (by decide) (by decide)).2 "S1" exRecA [exRecB] exBsEmpty rfl⟩

/-- **C2 (counterexample)** — a session whose listing is non-empty (one file)
but where every per-file download fails: the store operation returns success
with an empty stored list instead of failing with a "nothing was uploaded"
condition. -/
theorem claim_C2_counterexample :
    Except.map (fun p => p.2)
      (store_recordings_to_azure exZoomOneFile exDlFail "tok" exDb "S1" exBsEmpty) =
      .ok ([] : List StoredRec) ∧
    Except.map (fun p => p.2) (list_recordings exZoomOneFile "tok" exDb "S1") =
      .ok [exRecA] :=
  ⟨rfl, rfl⟩

/-- **C2 (amended)** — the store operation fails with 404 when the session is
absent and with 404 ("nothing to store") when the combined listing is empty;
when the listing is non-empty it always returns the processed stored list as
a success — there is no distinct "nothing was uploaded" failure, so when
every download fails it returns an empty success rather than an error. -/
theorem claim_C2_store_amended (zoom : ZoomEnv) (env : DlEnv) (token : String)
    (db : DB) (sid : String) (bs : BlobStore) :
    (findSession db sid = none →
      store_recordings_to_azure zoom env token db sid bs = .error 404) ∧
    (∀ trace, list_recordings zoom token db sid = .ok (trace, []) →
      store_recordings_to_azure zoom env token db sid bs = .error 404) ∧
    (∀ trace recs, list_recordings zoom token db sid = .ok (trace, recs) →
      recs ≠ [] →
      store_recordings_to_azure zoom env token db sid bs =
        .ok (storeLoop env token sid recs bs)) := by
  refine ⟨?_, ?_, ?_⟩
  · intro hfs
    unfold store_recordings_to_azure
    have hl : list_recordings zoom token db sid = .error 404 := by
      unfold list_recordings
      rw [hfs]
    rw [hl]
  · intro trace hl
    unfold store_recordings_to_azure
    rw [hl]
    dsimp only
    rw [if_pos rfl]
  · intro trace recs hl hne
    unfold store_recordings_to_azure
    rw [hl]
    dsimp only
    rw [if_neg hne]

/-- Witness for the amended C2: an empty listing is a 404; the non-empty
listing with failing downloads returns the (empty) loop result as success. -/
theorem claim_C2_witness :
    store_recordings_to_azure exZoomOneFile exDlFail "tok" exDbBare "S1" exBsEmpty =
      .error 404 ∧
    store_recordings_to_azure exZoomOneFile exDlFail "tok" exDb "S1" exBsEmpty =
      .ok (storeLoop exDlFail "tok" "S1" [exRecA] exBsEmpty) :=
  ⟨(claim_C2_store_amended exZoomOneFile exDlFail "tok" exDbBare "S1" exBsEmpty).2.1
      [] (by rfl),
   (claim_C2_store_amended exZoomOneFile exDlFail "tok" exDb "S1" exBsEmpty).2.2
      [recordingsUrl "M1", recordingsUrl "M2"] [exRecA] (by rfl) (by decide)⟩

/-- Membership through one stable insertion. -/
theorem mem_insAfterLe {y m : Meeting} :
    ∀ {l : List Meeting}, y ∈ insAfterLe m l ↔ y = m ∨ y ∈ l := by
  intro l
  induction l with
  | nil => simp [insAfterLe]
  | cons x xs ih =>
    by_cases h : x.scheduled_for ≤ m.scheduled_for
    · simp only [insAfterLe, if_pos h, List.mem_cons, ih]
      tauto
    · simp only [insAfterLe, if_neg h, List.mem_cons]

/-- The last element after one insertion: the old last when some element of
the list has a strictly larger key than the inserted one, the inserted
element otherwise. -/
theorem getLastD_insAfterLe (m : Meeting) :
    ∀ (l : List Meeting) (d : Meeting), (insAfterLe m l).getLastD d =
      if ∃ x ∈ l, m.scheduled_for < x.scheduled_for then l.getLastD d else m := by
  intro l
  induction l with
  | nil => intro d; simp [insAfterLe]
  | cons x xs ih =>
    intro d
    by_cases h : x.scheduled_for ≤ m.scheduled_for
    · have hnl : ¬ m.scheduled_for < x.scheduled_for := not_lt.2 h
      rw [show insAfterLe m (x :: xs) = x :: insAfterLe m xs from by
        simp only [insAfterLe, if_pos h]]
      rw [List.getLastD_cons, ih x]
      by_cases hex : ∃ y ∈ xs, m.scheduled_for < y.scheduled_for
      · rw [if_pos hex, if_pos (by
          rcases hex with ⟨y, hy, hlt⟩
          exact ⟨y, List.mem_cons_of_mem x hy, hlt⟩), List.getLastD_cons]
      · rw [if_neg hex, if_neg (by
          rintro ⟨z, hz, hlt⟩
          rcases List.mem_cons.1 hz with rfl | hz'
          · exact hnl hlt
          · exact hex ⟨z, hz', hlt⟩)]
    · rw [show insAfterLe m (x :: xs) = m :: x :: xs from by
        simp only [insAfterLe, if_neg h]]
      rw [List.getLastD_cons, List.getLastD_cons,
        if_pos ⟨x, List.mem_cons_self x xs, not_le.1 h⟩, List.getLastD_cons]

/-- One insertion preserves "the last element carries the maximal key". -/
theorem maxLast_insAfterLe (m : Meeting) (l : List Meeting)
    (h : ∀ y ∈ l, y.scheduled_for ≤ (l.getLastD meetingDefault).scheduled_for) :
    ∀ y ∈ insAfterLe m l,
      y.scheduled_for ≤ ((insAfterLe m l).getLastD meetingDefault).scheduled_for := by
  intro y hy
  rw [getLastD_insAfterLe]
  rcases mem_insAfterLe.1 hy with hym | hyl
  · subst hym
    by_cases hex : ∃ x ∈ l, y.scheduled_for < x.scheduled_for
    · rw [if_pos hex]
      rcases hex with ⟨x, hx, hlt⟩
      exact le_trans (le_of_lt hlt) (h x hx)
    · rw [if_neg hex]
  · by_cases hex : ∃ x ∈ l, m.scheduled_for < x.scheduled_for
    · rw [if_pos hex]
      exact h y hyl
    · rw [if_neg hex]
      push_neg at hex
      exact hex y hyl

/-- The fold of stable insertions preserves the max-last invariant. -/
theorem maxLast_foldl (ms : List Meeting) :
    ∀ acc, (∀ y ∈ acc, y.scheduled_for ≤ (acc.getLastD meetingDefault).scheduled_for) →
      ∀ y ∈ ms.foldl (fun a m => insAfterLe m a) acc,
        y.scheduled_for ≤
          ((ms.foldl (fun a m => insAfterLe m a) acc).getLastD meetingDefault).scheduled_for := by
  induction ms with
  | nil => intro acc h; simpa using h
  | cons m ms ih =>
    intro acc h
    exact ih (insAfterLe m acc) (maxLast_insAfterLe m acc h)

/-- Membership through the fold of stable insertions. -/
theorem mem_foldl_insAfterLe (ms : List Meeting) :
    ∀ acc y, y ∈ ms.foldl (fun a m => insAfterLe m a) acc ↔ y ∈ ms ∨ y ∈ acc := by
  induction ms with
  | nil => intro acc y; simp
  | cons m ms ih =>
    intro acc y
    rw [List.foldl_cons, ih (insAfterLe m acc) y]
    simp only [List.mem_cons, mem_insAfterLe]
    tauto

/-- Sorting by `scheduled_for` preserves membership. -/
theorem mem_sortByScheduledFor {y : Meeting} {l : List Meeting} :
    y ∈ sortByScheduledFor l ↔ y ∈ l := by
  unfold sortByScheduledFor
  rw [mem_foldl_insAfterLe]
  simp

/-- Sorting a non-empty meeting list is non-empty. -/
theorem sortByScheduledFor_ne_nil {l : List Meeting} (h : l ≠ []) :
    sortByScheduledFor l ≠ [] := by
  rcases List.exists_mem_of_ne_nil l h with ⟨y, hy⟩
  intro hnil
  have hmem : y ∈ sortByScheduledFor l := mem_sortByScheduledFor.2 hy
  rw [hnil] at hmem
  exact absurd hmem (by simp)

/-- `getLastD` of a non-empty list is a member. -/
theorem getLastD_mem : ∀ (l : List Meeting) (d : Meeting), l ≠ [] → l.getLastD d ∈ l := by
  intro l
  induction l with
  | nil => intro d h; exact absurd rfl h
  | cons x xs ih =>
    intro d _
    rw [List.getLastD_cons]
    by_cases hxs : xs = []
    · subst hxs; simp
    · exact List.mem_cons_of_mem x (ih x hxs)

/-- **C8** — the meeting `send_invites` selects (`latestMeeting`, i.e.
`sorted(sess.meetings, key=scheduled_for)[-1]`) is one of the session's
meetings and its `scheduled_for` is greater than or equal to every other
meeting's `scheduled_for`: the selection is by maximum `scheduled_for`, not
by insertion position. -/
theorem claim_C8_latest_meeting (l : List Meeting) (h : l ≠ []) :
    latestMeeting l ∈ l ∧
    ∀ m ∈ l, m.scheduled_for ≤ (latestMeeting l).scheduled_for := by
  constructor
  · exact mem_sortByScheduledFor.1
      (getLastD_mem _ meetingDefault (sortByScheduledFor_ne_nil h))
  · intro m hm
    have hmem : m ∈ sortByScheduledFor l := mem_sortByScheduledFor.2 hm
    unfold latestMeeting
    unfold sortByScheduledFor at hmem ⊢
    exact maxLast_foldl l [] (by intro y hy; exact absurd hy (by simp)) m hmem

/-- A third meeting, scheduled earliest, placed last in insertion order. -/
def exMeeting3 : Meeting :=
  { id := "M3", uuid := "U3", session_id := "S1", join_url := "https://j/3",
    scheduled_for := 200 }

/-- Witness for C8: on `[M1 at 1000, M2 at 5000, M3 at 200]` the selected
meeting is M2 — neither the first nor the last by insertion order — and it
dominates every `scheduled_for`. -/
theorem claim_C8_witness :
    latestMeeting [exMeeting1, exMeeting2, exMeeting3] = exMeeting2 ∧
    (latestMeeting [exMeeting1, exMeeting2, exMeeting3] ∈
       [exMeeting1, exMeeting2, exMeeting3] ∧
     ∀ m ∈ [exMeeting1, exMeeting2, exMeeting3],
       m.scheduled_for ≤ (latestMeeting [exMeeting1, exMeeting2, exMeeting3]).scheduled_for) :=
  ⟨by rfl, claim_C8_latest_meeting [exMeeting1, exMeeting2, exMeeting3] (by decide)⟩

/-- The per-file outcome of the store loop: the fallback-chain content when it
is non-empty (a file is uploaded exactly when this is `some`). -/
def dlContent (env : DlEnv) (token : String) (rec : RecOut) : Option (List Nat) :=
  match (tryDownload env token rec.download_url).2 with
  | none => none
  | some c => if c = [] then none else some c

/-- The blob writes the store loop performs, in order (independent of the
initial blob store). -/
def writesOf (env : DlEnv) (token sid : String) : List RecOut → List (String × List Nat)
  | [] => []
  | rec :: rest =>
    match dlContent env token rec with
    | none => writesOf env token sid rest
    | some c => (blobName sid rec, c) :: writesOf env token sid rest

/-- The stored-record list the store loop returns (independent of the initial
blob store). -/
def storedOf (env : DlEnv) (token sid : String) : List RecOut → List StoredRec
  | [] => []
  | rec :: rest =>
    match dlContent env token rec with
    | none => storedOf env token sid rest
    | some c =>
      { meeting_id := rec.meeting_id, file_id := rec.id,
        blob_path := blobName sid rec, file_size := c.length } ::
        storedOf env token sid rest

/-- Replay a list of overwriting uploads on a blob store. -/
def applyWrites (bs : BlobStore) (ws : List (String × List Nat)) : BlobStore :=
  ws.foldl (fun b w => upload_blob b w.1 w.2) bs

/-- The value written last at a given key by a list of writes, if any. -/
def lastVal (ws : List (String × List Nat)) (k : String) : Option (List Nat) :=
  ws.foldl (fun acc w => if w.1 = k then some w.2 else acc) none

/-- The store loop is: replay the writes, return the stored list. -/
theorem storeLoop_eq (env : DlEnv) (token sid : String) :
    ∀ (recs : List RecOut) (bs : BlobStore),
      storeLoop env token sid recs bs =
        (applyWrites bs (writesOf env token sid recs), storedOf env token sid recs) := by
  intro recs
  induction recs with
  | nil => intro bs; rfl
  | cons rec rest ih =>
    intro bs
    cases hdl : (tryDownload env token rec.download_url).2 with
    | none =>
      have hc : dlContent env token rec = none := by
        unfold dlContent
        rw [hdl]
      simp only [storeLoop, hdl, writesOf, storedOf, hc]
      exact ih bs
    | some c =>
      by_cases hce : c = []
      · subst hce
        have hc : dlContent env token rec = none := by
          unfold dlContent
          rw [hdl]
          rfl
        simp only [storeLoop, hdl, if_pos rfl, writesOf, storedOf, hc]
        exact ih bs
      · have hc : dlContent env token rec = some c := by
          unfold dlContent
          rw [hdl]
          simp [hce]
        simp only [storeLoop, hdl, if_neg hce, writesOf, storedOf, hc]
        rw [ih (upload_blob bs (blobName sid rec) c)]
        rfl

/-- Folding the last-write accumulator from an arbitrary start. -/
theorem lastVal_foldl_init (k : String) :
    ∀ (t : List (String × List Nat)) (init : Option (List Nat)),
      t.foldl (fun acc w => if w.1 = k then some w.2 else acc) init =
        (lastVal t k).elim init some := by
  intro t
  induction t with
  | nil => intro init; rfl
  | cons a t ih =>
    intro init
    rw [List.foldl_cons]
    rw [show lastVal (a :: t) k =
      t.foldl (fun acc w => if w.1 = k then some w.2 else acc)
        (if a.1 = k then some a.2 else none) from rfl]
    rw [ih (if a.1 = k then some a.2 else init), ih (if a.1 = k then some a.2 else none)]
    cases hlv : lastVal t k with
    | none =>
      by_cases hk : a.1 = k
      · simp [hk]
      · simp [hk]
    | some v => simp

/-- Pointwise description of replaying writes: the last write at a key wins,
keys never written keep their old value. -/
theorem applyWrites_lookup (k : String) :
    ∀ (ws : List (String × List Nat)) (bs : BlobStore),
      applyWrites bs ws k = (lastVal ws k).elim (bs k) some := by
  intro ws
  induction ws with
  | nil => intro bs; rfl
  | cons w t ih =>
    intro bs
    rw [show applyWrites bs (w :: t) = applyWrites (upload_blob bs w.1 w.2) t from rfl, ih]
    have h2 : lastVal (w :: t) k = (lastVal t k).elim (if w.1 = k then some w.2 else none) some := by
      unfold lastVal
      rw [List.foldl_cons]
      exact lastVal_foldl_init k t _
    rw [h2]
    cases hlv : lastVal t k with
    | none =>
      unfold upload_blob
      by_cases hk : w.1 = k
      · simp [hk]
      · have hk' : ¬ k = w.1 := fun hkk => hk hkk.symm
        simp [hk, hk']
    | some v => simp

/-- Replaying the same writes twice is the same as replaying them once. -/
theorem applyWrites_idem (bs : BlobStore) (ws : List (String × List Nat)) (k : String) :
    applyWrites (applyWrites bs ws) ws k = applyWrites bs ws k := by
  have h1 := applyWrites_lookup k ws bs
  have h2 := applyWrites_lookup k ws (applyWrites bs ws)
  rw [h2, h1]
  cases hlv : lastVal ws k with
  | none => rfl
  | some v => rfl

/-- Every stored record comes from a listed recording whose download
succeeded, with the fields copied and the blob path built by `blobName`. -/
theorem mem_storedOf (env : DlEnv) (token sid : String) :
    ∀ (recs : List RecOut) (s : StoredRec), s ∈ storedOf env token sid recs →
      ∃ rec ∈ recs, ∃ c, dlContent env token rec = some c ∧
        s = { meeting_id := rec.meeting_id, file_id := rec.id,
              blob_path := blobName sid rec, file_size := c.length } := by
  intro recs
  induction recs with
  | nil => intro s hs; exact absurd hs (by simp [storedOf])
  | cons rec rest ih =>
    intro s hs
    cases hc : dlContent env token rec with
    | none =>
      simp only [storedOf, hc] at hs
      rcases ih s hs with ⟨r, hr, c', hc', hsr⟩
      exact ⟨r, List.mem_cons_of_mem _ hr, c', hc', hsr⟩
    | some c =>
      simp only [storedOf, hc] at hs
      rcases List.mem_cons.1 hs with rfl | hs'
      · exact ⟨rec, List.mem_cons_self _ _, c, hc, rfl⟩
      · rcases ih s hs' with ⟨r, hr, c', hc', hsr⟩
        exact ⟨r, List.mem_cons_of_mem _ hr, c', hc', hsr⟩

/-- **C9** — every stored record's blob path is exactly
`{session_id}/{meeting_id}/{file_id}.{file_type_lowercased}` for its
originating recording, and the store loop is idempotent: rerunning it on its
own output blob store returns the identical stored list and leaves every blob
key with an identical value (overwriting uploads with the same content). -/
theorem claim_C9_blob_key_idempotent (env : DlEnv) (token sid : String)
    (recs : List RecOut) (bs b1 : BlobStore) (s1 : List StoredRec)
    (h : storeLoop env token sid recs bs = (b1, s1)) :
    (∀ s ∈ s1, ∃ rec ∈ recs, s.meeting_id = rec.meeting_id ∧ s.file_id = rec.id ∧
      s.blob_path = sid ++ "/" ++ rec.meeting_id ++ "/" ++ rec.id ++ "." ++ rec.file_type.toLower) ∧
    (storeLoop env token sid recs b1).2 = s1 ∧
    (∀ k, (storeLoop env token sid recs b1).1 k = b1 k) := by
  have hdec := (h.symm.trans (storeLoop_eq env token sid recs bs))
  have hb1 : b1 = applyWrites bs (writesOf env token sid recs) := congrArg Prod.fst hdec
  have hs1 : s1 = storedOf env token sid recs := congrArg Prod.snd hdec
  refine ⟨?_, ?_, ?_⟩
  · intro s hs
    rw [hs1] at hs
    rcases mem_storedOf env token sid recs s hs with ⟨rec, hrec, c, hc, hsr⟩
    subst hsr
    exact ⟨rec, hrec, rfl, rfl, rfl⟩
  · rw [storeLoop_eq env token sid recs b1]
    exact hs1.symm
  · intro k
    rw [storeLoop_eq env token sid recs b1]
    dsimp only
    rw [hb1]
    exact applyWrites_idem bs (writesOf env token sid recs) k

/-- Witness for C9: one successfully downloaded file is stored under
`S1/M1/F1.mp4`, and rerunning the loop on the resulting blob store gives the
same stored list and pointwise-identical blobs. -/
theorem claim_C9_witness :
    storeLoop exDlOk "tok" "S1" [exRecA] exBsEmpty =
      (upload_blob exBsEmpty (blobName "S1" exRecA) [1, 2, 3],
       [{ meeting_id := "M1", file_id := "F1",
          blob_path := blobName "S1" exRecA, file_size := 3 }]) ∧
    (∀ s ∈ [{ meeting_id := "M1", file_id := "F1",
              blob_path := blobName "S1" exRecA, file_size := 3 : StoredRec }],
      ∃ rec ∈ [exRecA], s.meeting_id = rec.meeting_id ∧ s.file_id = rec.id ∧
        s.blob_path = "S1" ++ "/" ++ rec.meeting_id ++ "/" ++ rec.id ++ "." ++ rec.file_type.toLower) ∧
    (storeLoop exDlOk "tok" "S1" [exRecA]
        (upload_blob exBsEmpty (blobName "S1" exRecA) [1, 2, 3])).2 =
      [{ meeting_id := "M1", file_id := "F1",
         blob_path := blobName "S1" exRecA, file_size := 3 }] ∧
    (∀ k, (storeLoop exDlOk "tok" "S1" [exRecA]
        (upload_blob exBsEmpty (blobName "S1" exRecA) [1, 2, 3])).1 k =
      upload_blob exBsEmpty (blobName "S1" exRecA) [1, 2, 3] k) := by
  have hc := claim_C9_blob_key_idempotent exDlOk "tok" "S1" [exRecA] exBsEmpty
    (upload_blob exBsEmpty (blobName "S1" exRecA) [1, 2, 3])
    [{ meeting_id := "M1", file_id := "F1",
       blob_path := blobName "S1" exRecA, file_size := 3 }] (by rfl)
  exact ⟨by rfl, hc.1, hc.2.1, hc.2.2⟩

/-- **C6 (counterexample)** — on the modular add-participants path
(`controllers/participants.py`, the cited invite-on-create path) an email
send failure is **not** swallowed: the handler outcome is a 500 error, even
though the participant rows were already committed. -/
theorem claim_C6_counterexample :
    (add_participants_mod exEmailFail exIds "now" "end" exDb "S1" ["b@x.com"] "student").2 =
      .error (500, "smtp down") ∧
    (add_participants_mod exEmailFail exIds "now" "end" exDb "S1" ["b@x.com"] "student").1.participants =
      exDb.participants ++
        [{ id := exIds 0, session_id := "S1", email := "b@x.com", role := "student" }] :=
  ⟨by rfl, by rfl⟩

/-- **C6 (amended)** — the email-failure asymmetry, as the code has it: the
monolith's add-participants path swallows a send failure and still returns
the created participants; the monolith's schedule-meeting path still returns
the scheduled meeting when the provider succeeds, whatever the relay does;
the modular add-participants path instead propagates the failure as a 500
although the rows are already persisted; and the explicit send-invites action
propagates the failure as a 500. -/
theorem claim_C6_email_failure_asymmetry_amended
    (emailEnv : EmailEnv) (err : String) (ids : Nat → String)
    (nowStr endStr : String) (db : DB) (sid : String) (emails : List String)
    (role : String) (cenv : CreateEnv) (T : Int) (sess : SessionRow)
    (hfs : findSession db sid = some sess)
    (hfail : ∀ m, emailEnv m = .error err) :
    ((add_participants_mono emailEnv ids nowStr endStr db sid emails role).2 =
      .ok (emails.enum.map (fun p =>
        { id := ids p.1, session_id := sid, email := p.2, role := role : Participant }))) ∧
    ((add_participants_mod emailEnv ids nowStr endStr db sid emails role).2 =
        .error (500, err) ∧
      (add_participants_mod emailEnv ids nowStr endStr db sid emails role).1.participants =
        db.participants ++ emails.enum.map (fun p =>
          { id := ids p.1, session_id := sid, email := p.2, role := role : Participant })) ∧
    ((∀ q, (cenv q).status < 400) →
      ∃ out, schedule_meeting_mono cenv emailEnv nowStr db sid T = .ok out) ∧
    (meetingsOf db sid ≠ [] → participantsOf db sid ≠ [] →
      send_invites emailEnv nowStr db sid =
        .error (500, "Failed to send invites: " ++ err)) := by
  refine ⟨?_, ⟨?_, ?_⟩, ?_, ?_⟩
  · unfold add_participants_mono
    rw [hfs]
    dsimp only
    rw [hfail _]
  · unfold add_participants_mod
    rw [hfs]
    dsimp only
    rw [hfail _]
  · unfold add_participants_mod
    rw [hfs]
    dsimp only
    rw [hfail _]
  · intro hz
    unfold schedule_meeting_mono create_zoom_meeting
    rw [hfs]
    dsimp only
    rw [if_neg (not_le.2 (hz _))]
    dsimp only
    by_cases hp : participantsOf db sid = []
    · rw [if_pos hp]
      exact ⟨_, rfl⟩
    · rw [if_neg hp, hfail _]
      exact ⟨_, rfl⟩
  · intro hm hp
    unfold send_invites
    rw [hfs]
    dsimp only
    rw [if_neg hm, if_neg (by
      intro hmap
      exact hp (List.map_eq_nil_iff.1 hmap)), hfail _]

/-- Witness for the amended C6 at the concrete fixtures. -/
theorem claim_C6_witness :
    (add_participants_mono exEmailFail exIds "now" "end" exDb "S1" ["b@x.com"] "student").2 =
      .ok [{ id := exIds 0, session_id := "S1", email := "b@x.com", role := "student" }] ∧
    ((add_participants_mod exEmailFail exIds "now" "end" exDb "S1" ["b@x.com"] "student").2 =
        .error (500, "smtp down") ∧
      (add_participants_mod exEmailFail exIds "now" "end" exDb "S1" ["b@x.com"] "student").1.participants =
        exDb.participants ++
          [{ id := exIds 0, session_id := "S1", email := "b@x.com", role := "student" }]) ∧
    (∃ out, schedule_meeting_mono exCreateOk exEmailFail "now" exDb "S1" 7200 = .ok out) ∧
    send_invites exEmailFail "now" exDb "S1" =
      .error (500, "Failed to send invites: " ++ "smtp down") := by
  have hc := claim_C6_email_failure_asymmetry_amended exEmailFail "smtp down" exIds
    "now" "end" exDb "S1" ["b@x.com"] "student" exCreateOk 7200 exSession
    (by rfl) (fun _ => rfl)
  exact ⟨hc.1, hc.2.1,
    hc.2.2.1 (fun q => show (201 : Nat) < 400 by decide),
    hc.2.2.2 (by decide) (by decide)⟩
